import Mathlib

/-!
Verification of the command preprocessor of the `specialcmd` package
(`internal/specialcmd/specialcmd.go`).

Go strings are modelled as lists of characters (`GString`); byte indexing in
the source corresponds to list indexing here (the inputs involved are ASCII).
Go functions that can hit an out-of-range string index (a runtime panic) are
modelled as `Option`-valued, with `none` standing for the panic.
External collaborators (the Jupyter message bus, the OS, the exec helpers)
are modelled by a `World` of oracles, and the observable calls made to them
are recorded in an event list.
-/

/-- Go strings, modelled as lists of characters. -/
abbrev GString := List Char

/-- Go `error` values, modelled by their message text. -/
abbrev GErr := GString

/-- Escape mapping applied inside double quotes by `splitCmd`
(specialcmd.go:407-414): `\n` gives a newline, `\t` a tab, and any other
escaped character stands for itself. -/
def escMap (c : Char) : Char :=
  if c = 'n' then '\n' else if c = 't' then '\t' else c

/-- The scanning loop of `splitCmd` (specialcmd.go:374-419).
State: remaining input, current `part`, `partStarted`, `inQuotes`.
The source's two-character consumption of an escape (`pos++`) is modelled by
the nested match on the tail; a backslash that is the last character inside
quotes breaks out of the loop, after which the started part is flushed
(specialcmd.go:400-404 and 420-422). -/
def splitGo : List Char → List Char → Bool → Bool → List (List Char)
  | [], part, started, _ => if started then [part] else []
  | c :: rest, part, started, inQ =>
    if inQ = false ∧ (c = ' ' ∨ c = '\t' ∨ c = '\n') then
      if started then part :: splitGo rest [] false inQ
      else splitGo rest [] false inQ
    else if c = '"' then
      if inQ then splitGo rest part started false
      else splitGo rest part true true
    else if c = '\\' ∧ inQ then
      match rest with
      | [] => if started then [part] else []
      | c2 :: rest2 => splitGo rest2 (part ++ [escMap c2]) true inQ
    else splitGo rest (part ++ [c]) true inQ

/-- `splitCmd` (specialcmd.go:370-424): split a special command into parts
separated by spaces, honouring double quotes and in-quote escapes. -/
def splitCmd (cmd : GString) : List GString := splitGo cmd [] false false

/-- The loop of `joinLine` (specialcmd.go:105-115), iterating over the lines
from `fromLine` on (given as the list `rest`), with `i` the absolute index of
the current line, `acc` the accumulated `cmdStr` and `used` the used-line set.
When the accumulated string is empty, the source indexes `cmdStr[len(cmdStr)-1]`
out of range: modelled as `none`. -/
def joinLineAux : List GString → ℕ → GString → Finset ℕ → Option (GString × Finset ℕ)
  | [], _, acc, used => some (acc, used)
  | l :: rest, i, acc, used =>
    let s := acc ++ l
    if s = [] then none
    else if s.getLast? = some '\\' then
      joinLineAux rest (i + 1) (s.dropLast ++ [' ']) (insert i used)
    else some (s, insert i used)

/-- `joinLine` (specialcmd.go:105-115): starting from `fromLine`, join
consecutive lines while the accumulated command ends with a backslash,
replacing the backslash by a space, and insert every consumed line into
the used-line set. -/
def joinLine (lines : List GString) (fromLine : ℕ) (used : Finset ℕ) :
    Option (GString × Finset ℕ) :=
  joinLineAux (lines.drop fromLine) fromLine [] used

/-- The space-skipping loop of `Parse` (specialcmd.go:58-60):
`for cmdStr[0] == ' ' { cmdStr = cmdStr[1:] }`.  When the string becomes
empty the loop condition indexes `cmdStr[0]` out of range: modelled as
`none`. -/
def stripSpaces : GString → Option GString
  | [] => none
  | c :: rest => if c = ' ' then stripSpaces rest else some (c :: rest)

/-- Whether a line starts with one of the two sigils, as tested by
`parseCmdBody` (specialcmd.go:124): `len(l) > 0 && (l[0]=='%'||l[0]=='!')`. -/
def hasSigilPrefix (l : GString) : Prop :=
  0 < l.length ∧ (l.head? = some '%' ∨ l.head? = some '!')

instance (l : GString) : Decidable (hasSigilPrefix l) := by
  unfold hasSigilPrefix; infer_instance

/-- The loop of `parseCmdBody` (specialcmd.go:123-130), over the lines from
`fromLine+1` on (given as the list `rest`), with `i` the absolute index of
the current line. -/
def parseCmdBodyAux : List GString → ℕ → GString → Finset ℕ → GString × Finset ℕ
  | [], _, body, used => (body, used)
  | l :: rest, i, body, used =>
    if hasSigilPrefix l then (body, used)
    else parseCmdBodyAux rest (i + 1) (body ++ l ++ ['\n']) (insert i used)

/-- `parseCmdBody` (specialcmd.go:120-132): collect the lines following
`fromLine` up to (excluding) the first line starting with `%` or `!`, each
suffixed with a newline, inserting the consumed lines (and `fromLine` itself)
into the used-line set. -/
def parseCmdBody (lines : List GString) (fromLine : ℕ) (used : Finset ℕ) :
    GString × Finset ℕ :=
  parseCmdBodyAux (lines.drop (fromLine + 1)) (fromLine + 1) [] (insert fromLine used)

/-- C1: `%args --text "hello world"` splits into exactly the three parts
`%args`, `--text` and `hello world`: the double-quoted substring keeps its
internal space as one part and the quote characters do not appear in the
output of `splitCmd`. -/
theorem claim1_splitCmd_quoted_argument :
    splitCmd ("%args --text \"hello world\"").data =
      [("%args").data, ("--text").data, ("hello world").data] := by
  decide

/-- The line-joining procedure as the specification words it (claim C2):
while the accumulated string ends with a trailing backslash, the backslash is
replaced by exactly one space and the following line (when one remains) is
appended, the consumed line being recorded in the used-line set.  Written
from the spec's words, to be compared with `joinLine`. -/
def joinPerSpec : List GString → ℕ → GString → Finset ℕ → GString × Finset ℕ
  | [], _, s, used =>
    if s.getLast? = some '\\' then (s.dropLast ++ [' '], used) else (s, used)
  | l :: rest, i, s, used =>
    if s.getLast? = some '\\' then
      joinPerSpec rest (i + 1) (s.dropLast ++ [' '] ++ l) (insert (i + 1) used)
    else (s, used)

/-- The spec-side description of `joinLine`: start from the line at index `i`
(inserted into the used-line set) and join per `joinPerSpec`. -/
def joinLineSpec (lines : List GString) (i : ℕ) (used : Finset ℕ) :
    GString × Finset ℕ :=
  joinPerSpec (lines.drop (i + 1)) i (lines.getD i []) (insert i used)

theorem joinLineAux_cons (l : GString) (rest : List GString) (i : ℕ)
    (acc : GString) (used : Finset ℕ) :
    joinLineAux (l :: rest) i acc used =
      if acc ++ l = [] then none
      else if (acc ++ l).getLast? = some '\\' then
        joinLineAux rest (i + 1) ((acc ++ l).dropLast ++ [' ']) (insert i used)
      else some (acc ++ l, insert i used) := rfl

theorem joinPerSpec_nil (i : ℕ) (s : GString) (used : Finset ℕ) :
    joinPerSpec [] i s used =
      if s.getLast? = some '\\' then (s.dropLast ++ [' '], used)
      else (s, used) := rfl

theorem joinPerSpec_cons (l : GString) (rest : List GString) (i : ℕ)
    (s : GString) (used : Finset ℕ) :
    joinPerSpec (l :: rest) i s used =
      if s.getLast? = some '\\' then
        joinPerSpec rest (i + 1) (s.dropLast ++ [' '] ++ l) (insert (i + 1) used)
      else (s, used) := rfl

theorem joinLineAux_eq_joinPerSpec (rest : List GString) :
    ∀ (l : GString) (i : ℕ) (acc : GString) (used : Finset ℕ),
      acc ++ l ≠ [] →
      joinLineAux (l :: rest) i acc used =
        some (joinPerSpec rest i (acc ++ l) (insert i used)) := by
  induction rest with
  | nil =>
    intro l i acc used h
    rw [joinLineAux_cons, if_neg h, joinPerSpec_nil]
    by_cases hb : (acc ++ l).getLast? = some '\\'
    · rw [if_pos hb, if_pos hb]
      rfl
    · rw [if_neg hb, if_neg hb]
  | cons l' rest ih =>
    intro l i acc used h
    rw [joinLineAux_cons, if_neg h, joinPerSpec_cons]
    by_cases hb : (acc ++ l).getLast? = some '\\'
    · rw [if_pos hb, if_pos hb,
        ih l' (i + 1) ((acc ++ l).dropLast ++ [' ']) (insert i used) (by simp),
        List.append_assoc]
    · rw [if_neg hb, if_neg hb]

/-- C2: for every list of submission lines and every starting index (in range,
with a nonempty starting line, which is what `Parse` guarantees and what the
source needs to avoid an out-of-range index), `joinLine` computes exactly the
spec-side joining procedure: a trailing backslash is replaced by exactly one
space and the following line appended, repeating while the accumulated string
still ends with a backslash (or until the last line), and every consumed line
-- including the starting one -- is inserted into the used-line set. -/
theorem claim2_joinLine_continuation (lines : List GString) (i : ℕ)
    (used : Finset ℕ) (h : i < lines.length) (hne : lines.getD i [] ≠ []) :
    joinLine lines i used = some (joinLineSpec lines i used) := by
  unfold joinLine joinLineSpec
  have hd : lines.drop i = lines.getD i [] :: lines.drop (i + 1) := by
    rw [List.getD_eq_getElem lines [] h]
    exact List.drop_eq_getElem_cons h
  rw [hd]
  exact joinLineAux_eq_joinPerSpec _ _ _ [] _ (by simpa using hne)

theorem claim2_joinLine_continuation_witness :
    (0 < [("%ab \\").data, ("cd").data].length ∧
      [("%ab \\").data, ("cd").data].getD 0 [] ≠ []) ∧
    joinLine [("%ab \\").data, ("cd").data] 0 ∅ =
      some (joinLineSpec [("%ab \\").data, ("cd").data] 0 ∅) :=
  ⟨⟨by decide, by decide⟩,
    claim2_joinLine_continuation [("%ab \\").data, ("cd").data] 0 ∅
      (by decide) (by decide)⟩

/-- C4: inside a double-quoted substring of `splitCmd`, `\n` produces a
newline, `\t` a tab, and a backslash followed by any other character produces
that character literally; outside of double quotes a backslash has no special
meaning and stays an ordinary character of the part. -/
theorem claim4_splitCmd_escapes :
    (splitCmd ("\"a\\nb\"").data = [("a\nb").data]) ∧
    (splitCmd ("\"a\\tb\"").data = [("a\tb").data]) ∧
    (∀ c : Char, c ≠ 'n' → c ≠ 't' →
      splitCmd ['"', 'a', '\\', c, 'b', '"'] = [['a', c, 'b']]) ∧
    (∀ c : Char, c ≠ ' ' → c ≠ '\t' → c ≠ '\n' → c ≠ '"' →
      splitCmd ['a', '\\', c] = [['a', '\\', c]]) := by
  refine ⟨by decide, by decide, ?_, ?_⟩
  · intro c h1 h2
    simp [splitCmd, splitGo, escMap, h1, h2]
  · intro c h1 h2 h3 h4
    simp [splitCmd, splitGo, escMap, h1, h2, h3, h4]

theorem claim4_splitCmd_escapes_witness :
    splitCmd ['"', 'a', '\\', 'q', 'b', '"'] = [['a', 'q', 'b']] ∧
    splitCmd ['a', '\\', 'q'] = [['a', '\\', 'q']] :=
  ⟨claim4_splitCmd_escapes.2.2.1 'q' (by decide) (by decide),
    claim4_splitCmd_escapes.2.2.2 'q' (by decide) (by decide) (by decide)
      (by decide)⟩

theorem insert_union_Ico (used : Finset ℕ) (i k : ℕ) :
    insert i used ∪ Finset.Ico (i + 1) (i + 1 + k) =
      used ∪ Finset.Ico i (i + 1 + k) := by
  ext x
  simp only [Finset.mem_union, Finset.mem_insert, Finset.mem_Ico]
  constructor
  · rintro ((rfl | hx) | ⟨h1, h2⟩)
    · exact Or.inr ⟨le_refl _, by omega⟩
    · exact Or.inl hx
    · exact Or.inr ⟨by omega, by omega⟩
  · rintro (hx | ⟨h1, h2⟩)
    · exact Or.inl (Or.inr hx)
    · rcases Nat.eq_or_lt_of_le h1 with rfl | hlt
      · exact Or.inl (Or.inl rfl)
      · exact Or.inr ⟨by omega, by omega⟩

theorem parseCmdBodyAux_spec (rest : List GString) :
    ∀ (i : ℕ) (body : GString) (used : Finset ℕ),
      parseCmdBodyAux rest i body used =
        (body ++
          ((rest.takeWhile (fun l => !decide (hasSigilPrefix l))).map
            (fun l => l ++ ['\n'])).flatten,
         used ∪ Finset.Ico i
           (i + (rest.takeWhile (fun l => !decide (hasSigilPrefix l))).length)) := by
  induction rest with
  | nil => intro i body used; simp [parseCmdBodyAux]
  | cons l rest ih =>
    intro i body used
    by_cases h : hasSigilPrefix l
    · simp [parseCmdBodyAux, h, List.takeWhile_cons]
    · rw [parseCmdBodyAux, if_neg h, ih]
      have htw : (l :: rest).takeWhile (fun x => !decide (hasSigilPrefix x)) =
          l :: rest.takeWhile (fun x => !decide (hasSigilPrefix x)) := by
        simp [List.takeWhile_cons, h]
      rw [htw]
      simp only [List.map_cons, List.flatten_cons, List.length_cons,
        Prod.mk.injEq]
      constructor
      · simp
      · rw [insert_union_Ico used i]
        have h2 : i + 1 + (rest.takeWhile
              (fun x => !decide (hasSigilPrefix x))).length =
            i + ((rest.takeWhile
              (fun x => !decide (hasSigilPrefix x))).length + 1) := by omega
        rw [h2]

/-- Input mode of a shell execution: plain, or with the interactive /
masked input helpers (`WithInputs` / `WithPassword`, specialcmd.go:351-359),
carrying their startup delay in milliseconds. -/
inductive InputMode
  | plain
  | withInputs (delayMs : ℕ)
  | withPassword (delayMs : ℕ)
  deriving DecidableEq

/-- Observable calls made to the external collaborators (message bus, OS,
goexec helpers).  Pure bookkeeping (klog) is not recorded. -/
inductive Event
  | publishStdout (s : GString)
  | publishStderr (s : GString)
  | publishHtml (s : GString)
  | publishMarkdown (s : GString)
  | setEnv (key value : GString)
  | chdir (dir : GString)
  | openWrite (filename : GString) (append : Bool)
  | fileWrite (filename : GString) (content : GString)
  | execBash (cmd dir : GString) (mode : InputMode)
  | installWebSocket
  | sendHeartbeat (timeoutMs : ℕ)
  | autoTrack
  | goModInit
  | goWorkFix
  | makeWasmSubdir
  | resetDefs
  | listDefs
  | removeDefs (args : List GString)
  | trackFiles (args : List GString)
  | untrackFiles (args : List GString)
  deriving DecidableEq

/-- `MillisecondsWaitForInput` (specialcmd.go:27-30): wait time before an
input is prompted for a shell command run with `%with_inputs` or
`%with_password`. -/
def MillisecondsWaitForInput : ℕ := 200

/-- `cellStatus` (specialcmd.go:35-38): temporary status of the current cell. -/
structure CellStatus where
  withInputs : Bool
  withPassword : Bool
  deriving DecidableEq

/-- The fields of `goexec.State` read or written by specialcmd.go. -/
structure GoExecState where
  Args : List GString
  CellIsTest : Bool
  CellIsWasm : Bool
  WasmDivId : GString
  GoBuildFlags : List GString
  AutoGet : Bool
  UniqueID : GString
  TempDir : GString
  deriving DecidableEq

/-- Oracles for the external collaborators: each fallible external call is
given its outcome by the world (`none` = success), and data-returning calls
their return value.  `replaceTilde` stands for `common.ReplaceTildeInDir`,
which is not under `src/`. -/
structure World where
  allowStdin : Bool
  heartbeatResult : Except GErr Bool
  publishHtmlErr : Option GErr
  publishStreamErr : Option GErr
  setenvErr : GString → GString → Option GErr
  chdirErr : GString → Option GErr
  getwd : GString
  replaceTilde : GString → GString
  uniqueId : GString
  makeWasmErr : Option GErr
  installWSErr : Option GErr
  goModInitErr : Option GErr
  goWorkFixErr : Option GErr
  autoTrackErr : Option GErr
  openFileErr : Option GErr
  writeFileErr : Option GErr
  execErr : Option GErr

/-- Modelled from the spec: the embedded `help.md` (specialcmd.go:32-33) is
not under `src/`; only the fact that `%help` publishes it matters here. -/
def HelpMessage : GString := ("gonb help").data

/-- Modelled from the spec: `protocol.GONB_DIR_ENV` is not under `src/`;
only its identity as the variable set on `%cd` matters here. -/
def GONB_DIR_ENV : GString := ("GONB_DIR").data

/-- The warning for an unrecognized command name (specialcmd.go:297). -/
def unknownCmdMsg (name : GString) : GString :=
  ['"', '%'] ++ name ++ ("\" unknown or not implemented yet.").data

/-- `errors.Wrapf` / `errors.WithMessagef`: "msg: err". -/
def wrapErr (msg e : GErr) : GErr := msg ++ (": ").data ++ e

/-- The `%env` usage error (specialcmd.go:196), with the given argument
count rendered in decimal. -/
def envUsageMsg (given : ℕ) : GString :=
  ("`%env <VAR_NAME> <value>` (or `%env <VAR_NAME>=<value>`): it takes 2 arguments, the variable name and it's content, but ").data
    ++ (toString given).data ++ (" were given").data

/-- The `%cd` usage error (specialcmd.go:214). -/
def cdUsageMsg (given : ℕ) : GString :=
  ("`%cd [<directory>]`: it takes none or one argument, but ").data
    ++ (toString given).data ++ (" were given").data

/-- The stdout report of a successful `%env` (specialcmd.go:203); the `%q`
quoting of the value is simplified to the plain value. -/
def setEnvOkMsg (key value : GString) : GString :=
  ("Set: ").data ++ key ++ ('=' :: value) ++ ['\n']

/-- Heartbeat pong report (specialcmd.go:180). -/
def hbPongMsg : GString := ("Heartbeat pong received back.").data

/-- Heartbeat timeout report (specialcmd.go:182). -/
def hbTimeoutMsg : GString :=
  ("Timed-out, no heartbeat pong received. Try installing front-end websockets with %widgets ?").data

/-- Result of `execInternal`: returned error, updated engine state and cell
status, and the external calls performed. -/
structure ExecResult where
  err : Option GErr
  goExec : GoExecState
  status : CellStatus
  events : List Event
  deriving DecidableEq

/-- The `case "env"` body of `execInternal` (specialcmd.go:185-206), taking
the full `parts` list.  With exactly two parts, a `KEY=VALUE` second part is
split at the first `=` only when that `=` sits at an index greater than 1. -/
def execEnvBranch (w : World) (parts : List GString) : Option GErr × List Event :=
  let parts :=
    if parts.length = 2 then
      match (parts.getD 1 []).findIdx? (fun c => c == '=') with
      | some eqPos =>
        if 1 < eqPos then
          [parts.getD 0 [], (parts.getD 1 []).take eqPos,
            (parts.getD 1 []).drop (eqPos + 1)]
        else parts
      | none => parts
    else parts
  if parts.length ≠ 3 then (some (envUsageMsg (parts.length - 1)), [])
  else
    let key := parts.getD 1 []
    let value := parts.getD 2 []
    match w.setenvErr key value with
    | some e =>
      (some (wrapErr (("`%env ").data ++ key ++ [' '] ++ value ++ ("` failed").data) e),
        [Event.setEnv key value])
    | none => (none, [Event.setEnv key value, Event.publishStdout (setEnvOkMsg key value)])

/-- The names carried by the non-default cases of `execInternal`'s switch
(specialcmd.go:147-295), plus the specially-dispatched `writefile`. -/
def knownCmds : List GString :=
  [("%").data, ("main").data, ("args").data, ("test").data, ("wasm").data,
    ("widgets").data, ("widgets_hb").data, ("env").data, ("cd").data,
    ("goflags").data, ("autoget").data, ("noautoget").data, ("help").data,
    ("reset").data, ("ls").data, ("list").data, ("rm").data, ("remove").data,
    ("with_inputs").data, ("with_password").data, ("track").data,
    ("untrack").data, ("goworkfix").data, ("writefile").data]

/-- `execInternal` (specialcmd.go:140-303).  `none` models the panic of
`parts[0]` when `splitCmd` returns no parts.  Publish errors that the source
only logs are dropped; the ones it returns come from the world's oracles. -/
def execInternal (w : World) (gx : GoExecState) (cmdStr : GString)
    (st : CellStatus) : Option ExecResult :=
  match splitCmd cmdStr with
  | [] => none
  | p0 :: rest =>
    if p0 = ("%").data ∨ p0 = ("main").data ∨ p0 = ("args").data ∨ p0 = ("test").data then
      some ⟨none,
        { gx with
            Args := rest,
            CellIsTest := if p0 = ("test").data then true else gx.CellIsTest },
        st, []⟩
    else if p0 = ("wasm").data then
      if rest ≠ [] then
        some ⟨some (("`%wasm` takes no extra parameters.").data), gx, st, []⟩
      else
        match w.makeWasmErr with
        | some e =>
          some ⟨some (wrapErr (("failed to prepare `%wasm`").data) e),
            { gx with CellIsWasm := true }, st, [Event.makeWasmSubdir]⟩
        | none =>
          some ⟨none, { gx with CellIsWasm := true, WasmDivId := w.uniqueId },
            st, [Event.makeWasmSubdir]⟩
    else if p0 = ("widgets").data then
      some ⟨w.installWSErr, gx, st, [Event.installWebSocket]⟩
    else if p0 = ("widgets_hb").data then
      match w.heartbeatResult with
      | .error e => some ⟨some e, gx, st, [Event.sendHeartbeat 1000]⟩
      | .ok true =>
        some ⟨w.publishHtmlErr, gx, st,
          [Event.sendHeartbeat 1000, Event.publishHtml hbPongMsg]⟩
      | .ok false =>
        some ⟨w.publishHtmlErr, gx, st,
          [Event.sendHeartbeat 1000, Event.publishHtml hbTimeoutMsg]⟩
    else if p0 = ("env").data then
      let pe := execEnvBranch w (p0 :: rest)
      some ⟨pe.1, gx, st, pe.2⟩
    else if p0 = ("cd").data then
      if rest = [] then
        some ⟨none, gx, st,
          [Event.publishStdout (("Current directory: ").data ++ w.getwd ++ ['\n'])]⟩
      else if 1 < rest.length then
        some ⟨some (cdUsageMsg rest.length), gx, st, []⟩
      else
        let dir := w.replaceTilde (rest.getD 0 [])
        match w.chdirErr dir with
        | some e =>
          some ⟨some (wrapErr (("`%cd ").data ++ rest.getD 0 [] ++ ("` failed").data) e),
            gx, st, [Event.chdir dir]⟩
        | none =>
          some ⟨none, gx, st,
            [Event.chdir dir,
              Event.publishStdout (("Changed directory to ").data ++ w.getwd ++ ['\n']),
              Event.setEnv GONB_DIR_ENV w.getwd]⟩
    else if p0 = ("goflags").data then
      let gx1 :=
        if rest ≠ [] then { gx with GoBuildFlags := rest.filter (fun s => !s.isEmpty) }
        else gx
      some ⟨none, gx1, st,
        [Event.publishStdout
          (("%goflags=").data ++ (List.intercalate ([' ']) gx1.GoBuildFlags) ++ ['\n'])]⟩
    else if p0 = ("autoget").data then some ⟨none, { gx with AutoGet := true }, st, []⟩
    else if p0 = ("noautoget").data then some ⟨none, { gx with AutoGet := false }, st, []⟩
    else if p0 = ("help").data then
      some ⟨none, gx, st, [Event.publishMarkdown HelpMessage]⟩
    else if p0 = ("reset").data then
      if rest = [] then
        some ⟨w.goModInitErr, gx, st, [Event.resetDefs, Event.goModInit]⟩
      else if 1 < rest.length ∨ rest.getD 0 [] ≠ ("go.mod").data then
        some ⟨some (("%reset only take one optional parameter \"go.mod\"").data), gx, st, []⟩
      else some ⟨w.goModInitErr, gx, st, [Event.goModInit]⟩
    else if p0 = ("ls").data ∨ p0 = ("list").data then
      some ⟨none, gx, st, [Event.listDefs]⟩
    else if p0 = ("rm").data ∨ p0 = ("remove").data then
      some ⟨none, gx, st, [Event.removeDefs rest]⟩
    else if p0 = ("with_inputs").data then
      if w.allowStdin = false ∧ (st.withInputs = true ∨ st.withPassword = true) then
        some ⟨some (("%with_inputs not available in this notebook, it doesn't allow input prompting").data),
          gx, st, []⟩
      else some ⟨none, gx, { st with withInputs := true }, []⟩
    else if p0 = ("with_password").data then
      if w.allowStdin = false ∧ (st.withInputs = true ∨ st.withPassword = true) then
        some ⟨some (("%with_password not available in this notebook, it doesn't allow input prompting").data),
          gx, st, []⟩
      else some ⟨none, gx, { st with withPassword := true }, []⟩
    else if p0 = ("track").data then some ⟨none, gx, st, [Event.trackFiles rest]⟩
    else if p0 = ("untrack").data then some ⟨none, gx, st, [Event.untrackFiles rest]⟩
    else if p0 = ("goworkfix").data then
      some ⟨w.goWorkFixErr, gx, st, [Event.goWorkFix]⟩
    else some ⟨none, gx, st, [Event.publishStderr (unknownCmdMsg p0)]⟩

/-- Result of `execShell`: returned error, updated cell status, and the
shell execution performed. -/
structure ShellResult where
  err : Option GErr
  status : CellStatus
  events : List Event
  deriving DecidableEq

/-- `execShell` (specialcmd.go:342-365).  `none` models the panic of
`cmdStr[0]` on an empty command (`Parse` never passes one). -/
def execShell (w : World) (gx : GoExecState) (cmdStr : GString)
    (st : CellStatus) : Option ShellResult :=
  match cmdStr with
  | [] => none
  | c :: rest =>
    let cmd := if c = '*' then rest else c :: rest
    let dir := if c = '*' then gx.TempDir else []
    if st.withInputs then
      some ⟨w.execErr, ⟨false, false⟩,
        [Event.execBash cmd dir (InputMode.withInputs MillisecondsWaitForInput)]⟩
    else if st.withPassword then
      some ⟨w.execErr, ⟨false, false⟩,
        [Event.execBash cmd dir (InputMode.withPassword MillisecondsWaitForInput)]⟩
    else some ⟨w.execErr, st, [Event.execBash cmd dir InputMode.plain]⟩

/-- Modelled from the spec: `common.FlagsParse` is not under `src/`.  The
spec says the file-writing directive takes "an optional append flag and a
destination name", so we model a conventional flag parser: an argument
starting with `-` names a flag (leading dashes stripped, short names
expanded through `schema`, no value consumed -- every flag used here is in
`noValArg`); any other argument is positional, keyed "-pos1", "-pos2", ...
in order. -/
def FlagsParseAux (noValArg : List GString) (schema : List (GString × GString)) :
    List GString → ℕ → List (GString × GString)
  | [], _ => []
  | a :: rest, k =>
    if a.head? = some '-' then
      let name := a.dropWhile (fun c => c == '-')
      let name2 := match schema.lookup name with | some full => full | none => name
      (name2, []) :: FlagsParseAux noValArg schema rest k
    else (("-pos").data ++ (toString k).data, a) :: FlagsParseAux noValArg schema rest (k + 1)

/-- Modelled from the spec: see `FlagsParseAux`. -/
def FlagsParse (args : List GString) (noValArg : List GString)
    (schema : List (GString × GString)) : List (GString × GString) :=
  FlagsParseAux noValArg schema args 1

/-- Result of `execWriteFile`: returned error and the calls performed. -/
structure WriteFileResult where
  err : Option GErr
  events : List Event
  deriving DecidableEq

/-- `execWriteFile` (specialcmd.go:306-336): parse the `append` flag and the
destination (defaulting to `UniqueID + ".out"`), open the file (truncating
unless appending), write the body, and report; the final stream-publish
error is returned. -/
def execWriteFile (w : World) (gx : GoExecState) (args : List GString)
    (cmdBody : GString) : WriteFileResult :=
  let parse := FlagsParse args [("append").data] [(("a").data, ("append").data)]
  let appendMode := (parse.lookup (("append").data)).isSome
  let filename :=
    match parse.lookup (("-pos1").data) with
    | some f => f
    | none => gx.UniqueID ++ (".out").data
  match w.openFileErr with
  | some e => ⟨some e, [Event.openWrite filename appendMode]⟩
  | none =>
    match w.writeFileErr with
    | some e =>
      ⟨some e, [Event.openWrite filename appendMode, Event.fileWrite filename cmdBody]⟩
    | none =>
      ⟨w.publishStreamErr,
        [Event.openWrite filename appendMode, Event.fileWrite filename cmdBody,
          Event.publishStdout (("write to ").data ++ filename ++ (" success\n").data)]⟩

/-- Result of `Parse`: returned error, final engine state, used-line set,
and the external calls performed, in order. -/
structure ParseResult where
  err : Option GErr
  goExec : GoExecState
  used : Finset ℕ
  events : List Event
  deriving DecidableEq

/-- The loop of `Parse` (specialcmd.go:48-96), iterating over the suffix of
`codeLines` from index `i` (the suffix is passed explicitly so the recursion
is structural; callers maintain `suffix = lines.drop i`).  `carry` models the
named return value `err`: a failed `AutoTrack` (specialcmd.go:89-92) leaves
it set without returning, so the final naked `return` (specialcmd.go:97)
yields it. -/
def parseFromAux (w : World) (exec : Bool) (lines : List GString) :
    List GString → ℕ → GoExecState → Finset ℕ → CellStatus → Option GErr →
      Option ParseResult
  | [], _, gx, used, _, carry => some ⟨carry, gx, used, []⟩
  | line :: rest, i, gx, used, st, carry =>
    if i ∈ used then parseFromAux w exec lines rest (i + 1) gx used st carry
    else if 1 < line.length ∧ (line.head? = some '%' ∨ line.head? = some '!') then
      match joinLine lines i used with
      | none => none
      | some (cmdStr0, used1) =>
        match cmdStr0 with
        | [] => none
        | cmdType :: afterSigil =>
          match stripSpaces afterSigil with
          | none => none
          | some cmdStr =>
            if cmdStr = [] then parseFromAux w exec lines rest (i + 1) gx used1 st carry
            else if exec then
              if cmdType = '%' then
                let parts := splitCmd cmdStr
                if parts.head? = some (("writefile").data) then
                  let pb := parseCmdBody lines i used1
                  let r := execWriteFile w gx parts.tail pb.1
                  match r.err with
                  | some e => some ⟨some e, gx, pb.2, r.events⟩
                  | none =>
                    (parseFromAux w exec lines rest (i + 1) gx pb.2 st none).map
                      (fun pr => { pr with events := r.events ++ pr.events })
                else
                  match execInternal w gx cmdStr st with
                  | none => none
                  | some er =>
                    match er.err with
                    | some e => some ⟨some e, er.goExec, used1, er.events⟩
                    | none =>
                      (parseFromAux w exec lines rest (i + 1) er.goExec used1 er.status none).map
                        (fun pr => { pr with events := er.events ++ pr.events })
              else if cmdType = '!' then
                match execShell w gx cmdStr st with
                | none => none
                | some sr =>
                  match sr.err with
                  | some e => some ⟨some e, gx, used1, sr.events⟩
                  | none =>
                    (parseFromAux w exec lines rest (i + 1) gx used1 sr.status w.autoTrackErr).map
                      (fun pr => { pr with events := sr.events ++ [Event.autoTrack] ++ pr.events })
              else parseFromAux w exec lines rest (i + 1) gx used1 st carry
            else parseFromAux w exec lines rest (i + 1) gx used1 st carry
    else parseFromAux w exec lines rest (i + 1) gx used st carry

/-- `Parse` restarted at line `i` (with the suffix invariant applied). -/
def parseFrom (w : World) (exec : Bool) (lines : List GString) (i : ℕ)
    (gx : GoExecState) (used : Finset ℕ) (st : CellStatus)
    (carry : Option GErr) : Option ParseResult :=
  parseFromAux w exec lines (lines.drop i) i gx used st carry

/-- `Parse` (specialcmd.go:46-98): scan the submission lines for special
commands, executing them when `exec` is set; `none` models a panic. -/
def Parse (w : World) (gx : GoExecState) (exec : Bool)
    (codeLines : List GString) (usedLines : Finset ℕ) : Option ParseResult :=
  parseFromAux w exec codeLines codeLines 0 gx usedLines ⟨false, false⟩ none

/-- A concrete world in which every external call succeeds. -/
def w0 : World where
  allowStdin := true
  heartbeatResult := .ok true
  publishHtmlErr := none
  publishStreamErr := none
  setenvErr := fun _ _ => none
  chdirErr := fun _ => none
  getwd := ("/home/user").data
  replaceTilde := fun s => s
  uniqueId := ("uid1").data
  makeWasmErr := none
  installWSErr := none
  goModInitErr := none
  goWorkFixErr := none
  autoTrackErr := none
  openFileErr := none
  writeFileErr := none
  execErr := none

/-- A concrete engine state. -/
def gx0 : GoExecState where
  Args := []
  CellIsTest := false
  CellIsWasm := false
  WasmDivId := []
  GoBuildFlags := []
  AutoGet := true
  UniqueID := ("cellid").data
  TempDir := ("/tmp/gonb").data

/-- The fresh cell status `Parse` starts from. -/
def st0 : CellStatus := ⟨false, false⟩

theorem stripSpaces_all_space (t : GString) (h : ∀ x ∈ t, x = ' ') :
    stripSpaces t = none := by
  induction t with
  | nil => rfl
  | cons c rest ih =>
    have hc : c = ' ' := h c (by simp)
    simp only [stripSpaces, hc, if_pos rfl]
    exact ih (fun x hx => h x (by simp [hx]))

/-- C3 (amended): whenever the scan of `Parse` reaches a not-yet-used line
made of a sigil (`%` or `!`) followed only by spaces (length at least 2),
the space-skipping loop of `Parse` reduces the command string to the empty
string and then reads its first character out of range: the scan panics
there, so `Parse` is not total. -/
theorem claim3_allspace_command_panics (w : World) (exec : Bool)
    (lines : List GString) (i : ℕ) (gx : GoExecState) (used : Finset ℕ)
    (st : CellStatus) (carry : Option GErr) (c : Char) (t : GString)
    (hu : i ∉ used) (hget : lines[i]? = some (c :: t))
    (hc : c = '%' ∨ c = '!') (ht : t ≠ []) (hsp : ∀ x ∈ t, x = ' ') :
    parseFrom w exec lines i gx used st carry = none := by
  have hlt : i < lines.length := by
    by_contra hge
    rw [List.getElem?_eq_none (by omega)] at hget
    exact Option.noConfusion hget
  have hval : lines[i] = c :: t := by
    have := List.getElem?_eq_getElem hlt
    rw [this] at hget
    exact Option.some.inj hget
  have hdrop : lines.drop i = (c :: t) :: lines.drop (i + 1) := by
    rw [List.drop_eq_getElem_cons hlt, hval]
  have hsig : 1 < (c :: t).length ∧
      ((c :: t).head? = some '%' ∨ (c :: t).head? = some '!') := by
    constructor
    · have : 0 < t.length := List.length_pos.mpr ht
      simp only [List.length_cons]
      omega
    · rcases hc with rfl | rfl <;> simp
  have hlast : (c :: t).getLast? ≠ some '\\' := by
    obtain ⟨a, t', rfl⟩ := List.exists_cons_of_ne_nil ht
    rw [List.getLast?_cons_cons]
    have hmem := List.getLast_mem (List.cons_ne_nil a t')
    have : (a :: t').getLast (List.cons_ne_nil a t') = ' ' := hsp _ hmem
    rw [List.getLast?_eq_getLast _ (List.cons_ne_nil a t'), this]
    decide
  have hjoin : joinLine lines i used = some (c :: t, insert i used) := by
    unfold joinLine
    rw [hdrop, joinLineAux_cons]
    simp only [List.nil_append]
    rw [if_neg (List.cons_ne_nil c t), if_neg hlast]
  have hstrip : stripSpaces t = none := stripSpaces_all_space t hsp
  unfold parseFrom
  rw [hdrop]
  simp only [parseFromAux, if_neg hu, if_pos hsig, hjoin, hstrip]

theorem claim3_allspace_command_panics_witness :
    (0 ∉ (∅ : Finset ℕ) ∧ ([("% ").data])[0]? = some ('%' :: [' ']) ∧
      (('%' = '%' ∨ '%' = '!')) ∧ (([' '] : GString) ≠ []) ∧
      (∀ x ∈ ([' '] : GString), x = ' ')) ∧
    parseFrom w0 true [("% ").data] 0 gx0 ∅ st0 none = none :=
  ⟨⟨by decide, by decide, by decide, by decide, by decide⟩,
    claim3_allspace_command_panics w0 true [("% ").data] 0 gx0 ∅ st0 none '%' [' ']
      (by decide) (by decide) (by decide) (by decide) (by decide)⟩

/-- C3 counterexample (to the claim as universally stated over submissions
containing such a line): the submission `["%a \", "% "]` contains the line
`"% "` -- first character `%`, the rest all spaces, length 2 -- yet `Parse`
returns normally, because that line is consumed as a backslash continuation
of the previous line and is never scanned as a command of its own. -/
theorem claim3_counterexample :
    (Parse w0 gx0 false [("%a \\").data, ("% ").data] ∅).map
        (fun r => (r.err, r.events, decide (0 ∈ r.used), decide (1 ∈ r.used),
          r.used.card)) =
      some (none, [], true, true, 2) := by decide

/-- The execute-false behaviour of `Parse` as claim C9 (amended) words it:
no directive or shell execution and no external effect; each not-yet-used
line starting with `%` or `!` is joined with its backslash-continuation
lines by `joinLine`, and exactly those lines are inserted into the used-line
set; body lines of a file-writing directive are not touched (`parseCmdBody`
is never invoked); the all-space-command panic still propagates.  Written
from the claim's words, to be compared with `Parse`. -/
def markUsedAux (lines : List GString) :
    List GString → ℕ → Finset ℕ → Option (Finset ℕ)
  | [], _, used => some used
  | line :: rest, i, used =>
    if i ∈ used then markUsedAux lines rest (i + 1) used
    else if 1 < line.length ∧ (line.head? = some '%' ∨ line.head? = some '!') then
      match joinLine lines i used with
      | none => none
      | some (cmdStr0, used1) =>
        match cmdStr0 with
        | [] => none
        | _ :: afterSigil =>
          match stripSpaces afterSigil with
          | none => none
          | some _ => markUsedAux lines rest (i + 1) used1
    else markUsedAux lines rest (i + 1) used

theorem parseFromAux_false_eq_markUsed (w : World) (lines : List GString)
    (gx : GoExecState) (st : CellStatus) :
    ∀ (suffix : List GString) (i : ℕ) (used : Finset ℕ) (carry : Option GErr),
      parseFromAux w false lines suffix i gx used st carry =
        (markUsedAux lines suffix i used).map (fun u => ⟨carry, gx, u, []⟩) := by
  intro suffix
  induction suffix with
  | nil => intro i used carry; rfl
  | cons line rest ih =>
    intro i used carry
    simp only [parseFromAux, markUsedAux]
    by_cases hu : i ∈ used
    · simp only [if_pos hu]
      exact ih _ _ _
    · simp only [if_neg hu]
      by_cases hl : 1 < line.length ∧ (line.head? = some '%' ∨ line.head? = some '!')
      · simp only [if_pos hl]
        cases hj : joinLine lines i used with
        | none => simp only [hj, Option.map_none']
        | some p =>
          obtain ⟨cmdStr0, used1⟩ := p
          simp only [hj]
          cases cmdStr0 with
          | nil => simp only [Option.map_none']
          | cons cmdType afterSigil =>
            cases hs : stripSpaces afterSigil with
            | none => simp only [hs, Option.map_none']
            | some cmdStr =>
              simp only [hs]
              by_cases he : cmdStr = []
              · simp only [if_pos he]
                exact ih _ _ _
              · simp only [if_neg he, Bool.false_eq_true, if_false]
                exact ih _ _ _
      · simp only [if_neg hl]
        exact ih _ _ _

/-- C9 (amended): with the execute flag false, on every input on which it
does not panic, `Parse` returns a nil error, leaves the engine state
unchanged, performs no directive or shell execution (no external calls),
and the used-line set receives exactly the directive / shell-escape lines
together with their backslash-continuation lines, as computed by
`markUsedAux`; in particular the body lines of a file-writing directive are
not marked used. -/
theorem claim9_parse_noexec_marks_only (w : World) (gx : GoExecState)
    (lines : List GString) (used : Finset ℕ) :
    Parse w gx false lines used =
      (markUsedAux lines lines 0 used).map (fun u => ⟨none, gx, u, []⟩) :=
  parseFromAux_false_eq_markUsed w lines gx ⟨false, false⟩ lines 0 used none

/-- C9 counterexample (to "returns nil for every input"): with the execute
flag false, on the submission `["% "]` `Parse` does not return at all -- the
all-space command makes the space-skipping loop index an empty string. -/
theorem claim9_counterexample :
    Parse w0 gx0 false [("% ").data] ∅ = none := by decide

theorem execInternal_unknown (w : World) (gx : GoExecState) (st : CellStatus)
    (cmdStr : GString) (name : GString) (args : List GString)
    (hsplit : splitCmd cmdStr = name :: args) (hknown : name ∉ knownCmds) :
    execInternal w gx cmdStr st =
      some ⟨none, gx, st, [Event.publishStderr (unknownCmdMsg name)]⟩ := by
  simp only [knownCmds, List.mem_cons, List.not_mem_nil, or_false, not_or] at hknown
  obtain ⟨h1, h2, h3, h4, h5, h6, h7, h8, h9, h10, h11, h12, h13, h14, h15, h16,
    h17, h18, h19, h20, h21, h22, h23, h24⟩ := hknown
  unfold execInternal
  rw [hsplit]
  simp only [h1, h2, h3, h4, h5, h6, h7, h8, h9, h10, h11, h12, h13, h14, h15,
    h16, h17, h18, h19, h20, h21, h22, h23, h24, or_self, if_false, false_or,
    ite_false]

/-- C6: a directive whose name is not recognized does not abort the
submission: `execInternal` reports the unrecognized name as a warning on the
standard-error stream and returns a nil error, and the scan of `Parse`
continues processing the remaining lines of the submission (with the
directive line marked used and the warning prepended to the events of the
rest). -/
theorem claim6_unknown_directive_continues (w : World) (lines : List GString)
    (i : ℕ) (gx : GoExecState) (used : Finset ℕ) (st : CellStatus)
    (carry : Option GErr) (c0 : Char) (cs : GString) (name : GString)
    (args : List GString)
    (hu : i ∉ used)
    (hget : lines[i]? = some ('%' :: c0 :: cs))
    (hc0 : c0 ≠ ' ')
    (hlast : (c0 :: cs).getLast? ≠ some '\\')
    (hsplit : splitCmd (c0 :: cs) = name :: args)
    (hknown : name ∉ knownCmds) :
    execInternal w gx (c0 :: cs) st =
      some ⟨none, gx, st, [Event.publishStderr (unknownCmdMsg name)]⟩ ∧
    parseFrom w true lines i gx used st carry =
      (parseFrom w true lines (i + 1) gx (insert i used) st none).map
        (fun pr =>
          { pr with events := Event.publishStderr (unknownCmdMsg name) :: pr.events }) := by
  have hexec : execInternal w gx (c0 :: cs) st =
      some ⟨none, gx, st, [Event.publishStderr (unknownCmdMsg name)]⟩ :=
    execInternal_unknown w gx st (c0 :: cs) name args hsplit hknown
  refine ⟨hexec, ?_⟩
  have hlt : i < lines.length := by
    by_contra hge
    rw [List.getElem?_eq_none (by omega)] at hget
    exact Option.noConfusion hget
  have hval : lines[i] = '%' :: c0 :: cs := by
    have := List.getElem?_eq_getElem hlt
    rw [this] at hget
    exact Option.some.inj hget
  have hdrop : lines.drop i = ('%' :: c0 :: cs) :: lines.drop (i + 1) := by
    rw [List.drop_eq_getElem_cons hlt, hval]
  have hsig : 1 < ('%' :: c0 :: cs).length ∧
      (('%' :: c0 :: cs).head? = some '%' ∨ ('%' :: c0 :: cs).head? = some '!') := by
    refine ⟨?_, Or.inl (by simp)⟩
    simp only [List.length_cons]
    omega
  have hlast2 : ('%' :: c0 :: cs).getLast? ≠ some '\\' := by
    rw [List.getLast?_cons_cons]
    exact hlast
  have hjoin : joinLine lines i used = some ('%' :: c0 :: cs, insert i used) := by
    unfold joinLine
    rw [hdrop, joinLineAux_cons]
    simp only [List.nil_append]
    rw [if_neg (List.cons_ne_nil _ _), if_neg hlast2]
  have hstrip : stripSpaces (c0 :: cs) = some (c0 :: cs) := by
    simp only [stripSpaces, if_neg hc0]
  have hwf : name ≠ ("writefile").data := by
    intro h
    exact hknown (h ▸ (by decide : ("writefile").data ∈ knownCmds))
  unfold parseFrom
  rw [hdrop]
  simp only [parseFromAux, if_neg hu, if_pos hsig, hjoin, hstrip,
    if_neg (List.cons_ne_nil c0 cs), hsplit, hexec]
  simp only [List.head?_cons, Option.some.injEq, if_neg hwf]
  rfl

theorem claim6_unknown_directive_continues_witness :
    (0 ∉ (∅ : Finset ℕ) ∧
      ([("%foo").data])[0]? = some ('%' :: 'f' :: ("oo").data) ∧
      ('f' ≠ ' ') ∧
      (('f' :: ("oo").data).getLast? ≠ some '\\') ∧
      splitCmd ('f' :: ("oo").data) = ("foo").data :: [] ∧
      ("foo").data ∉ knownCmds) ∧
    (execInternal w0 gx0 ('f' :: ("oo").data) st0 =
        some ⟨none, gx0, st0, [Event.publishStderr (unknownCmdMsg (("foo").data))]⟩ ∧
      parseFrom w0 true [("%foo").data] 0 gx0 ∅ st0 none =
        (parseFrom w0 true [("%foo").data] 1 gx0 (insert 0 ∅) st0 none).map
          (fun pr =>
            { pr with
                events := Event.publishStderr (unknownCmdMsg (("foo").data)) :: pr.events })) :=
  ⟨⟨by decide, by decide, by decide, by decide, by decide, by decide⟩,
    claim6_unknown_directive_continues w0 [("%foo").data] 0 gx0 ∅ st0 none 'f'
      (("oo").data) (("foo").data) [] (by decide) (by decide) (by decide)
      (by decide) (by decide) (by decide)⟩

/-- C7: the interactive-input flag (set by `%with_inputs`) and the
masked-input flag (set by `%with_password`) each apply to exactly the next
shell-escape execution: every shell execution leaves both flags false, the
interactive-input flag takes precedence when both are set, the selected
input mode carries the bounded startup delay `MillisecondsWaitForInput`,
which equals 200 milliseconds, and (when the notebook allows stdin) the two
directives set exactly their respective flag without any other effect. -/
theorem claim7_input_flags_one_shot (w : World) (gx : GoExecState)
    (st : CellStatus) (c : Char) (cs : GString) :
    (st.withInputs = true →
      execShell w gx (c :: cs) st =
        some ⟨w.execErr, ⟨false, false⟩,
          [Event.execBash (if c = '*' then cs else c :: cs)
            (if c = '*' then gx.TempDir else [])
            (InputMode.withInputs MillisecondsWaitForInput)]⟩) ∧
    (st.withInputs = false → st.withPassword = true →
      execShell w gx (c :: cs) st =
        some ⟨w.execErr, ⟨false, false⟩,
          [Event.execBash (if c = '*' then cs else c :: cs)
            (if c = '*' then gx.TempDir else [])
            (InputMode.withPassword MillisecondsWaitForInput)]⟩) ∧
    (st.withInputs = false → st.withPassword = false →
      execShell w gx (c :: cs) st =
        some ⟨w.execErr, st,
          [Event.execBash (if c = '*' then cs else c :: cs)
            (if c = '*' then gx.TempDir else []) InputMode.plain]⟩) ∧
    (∀ r, execShell w gx (c :: cs) st = some r → r.status = ⟨false, false⟩) ∧
    MillisecondsWaitForInput = 200 ∧
    (w.allowStdin = true →
      execInternal w gx (("with_inputs").data) st =
          some ⟨none, gx, { st with withInputs := true }, []⟩ ∧
        execInternal w gx (("with_password").data) st =
          some ⟨none, gx, { st with withPassword := true }, []⟩) := by
  obtain ⟨wi, wp⟩ := st
  refine ⟨?_, ?_, ?_, ?_, rfl, ?_⟩
  · intro h
    subst h
    simp [execShell]
  · intro h1 h2
    subst h1; subst h2
    simp [execShell]
  · intro h1 h2
    subst h1; subst h2
    simp [execShell]
  · intro r hr
    cases wi <;> cases wp <;> simp_all [execShell] <;> rw [← hr]
  · intro hallow
    have hs1 : splitCmd (("with_inputs").data) = [("with_inputs").data] := by decide
    have hs2 : splitCmd (("with_password").data) = [("with_password").data] := by decide
    constructor
    · unfold execInternal
      rw [hs1]
      simp +decide [hallow]
    · unfold execInternal
      rw [hs2]
      simp +decide [hallow]

theorem claim7_input_flags_one_shot_witness :
    execShell w0 gx0 ('*' :: ("ls").data) ⟨true, true⟩ =
      some ⟨none, ⟨false, false⟩,
        [Event.execBash (("ls").data) (("/tmp/gonb").data)
          (InputMode.withInputs 200)]⟩ ∧
    execInternal w0 gx0 (("with_inputs").data) st0 =
      some ⟨none, gx0, ⟨true, false⟩, []⟩ := by
  constructor
  · have h := (claim7_input_flags_one_shot w0 gx0 ⟨true, true⟩ '*' (("ls").data)).1 rfl
    simpa [w0, gx0, MillisecondsWaitForInput] using h
  · have h := ((claim7_input_flags_one_shot w0 gx0 st0 '*' (("ls").data)).2.2.2.2.2 rfl).1
    simpa [st0] using h

/-- C8 (amended): the widget heartbeat probe waits with a bounded timeout of
one second (1000 milliseconds); when no pong arrives within the timeout it
publishes a timed-out (no response) report to the caller rather than
blocking indefinitely; a transport error from the probe itself is returned,
and otherwise the returned error is the outcome of publishing the report
(pong or timed-out), not a probe error. -/
theorem claim8_widgets_hb_bounded (w : World) (gx : GoExecState)
    (st : CellStatus) :
    (∀ e, w.heartbeatResult = .error e →
      execInternal w gx (("widgets_hb").data) st =
        some ⟨some e, gx, st, [Event.sendHeartbeat 1000]⟩) ∧
    (w.heartbeatResult = .ok false →
      execInternal w gx (("widgets_hb").data) st =
        some ⟨w.publishHtmlErr, gx, st,
          [Event.sendHeartbeat 1000, Event.publishHtml hbTimeoutMsg]⟩) ∧
    (w.heartbeatResult = .ok true →
      execInternal w gx (("widgets_hb").data) st =
        some ⟨w.publishHtmlErr, gx, st,
          [Event.sendHeartbeat 1000, Event.publishHtml hbPongMsg]⟩) := by
  have hs : splitCmd (("widgets_hb").data) = [("widgets_hb").data] := by decide
  refine ⟨fun e he => ?_, fun he => ?_, fun he => ?_⟩ <;>
    (unfold execInternal; rw [hs]; simp +decide [he])

/-- World for the C8 counterexample: the probe itself succeeds in transport
but times out, and publishing the timed-out report fails. -/
def wHb : World :=
  { w0 with
      heartbeatResult := .ok false,
      publishHtmlErr := some (("publish failed").data) }

/-- C8 counterexample (to "only a transport error from the probe itself is
returned as an error"): with a timed-out probe and a failing report publish,
the directive returns the publish error, which is not a transport error of
the probe. -/
theorem claim8_counterexample :
    execInternal wHb gx0 (("widgets_hb").data) st0 =
      some ⟨some (("publish failed").data), gx0, st0,
        [Event.sendHeartbeat 1000, Event.publishHtml hbTimeoutMsg]⟩ := by decide

theorem claim8_widgets_hb_bounded_witness :
    execInternal w0 gx0 (("widgets_hb").data) st0 =
      some ⟨none, gx0, st0,
        [Event.sendHeartbeat 1000, Event.publishHtml hbPongMsg]⟩ := by
  have h := (claim8_widgets_hb_bounded w0 gx0 st0).2.2 rfl
  simpa [w0] using h

/-- C10: the single-argument `%env NAME=VALUE` form is rewritten into the
two-argument form only when the `=` sits at an index greater than 1, so for
a single-character variable name the argument is not split and the directive
fails with the two-arguments usage error, while the equivalent two-argument
form `%env K V` performs the set. -/
theorem claim10_env_single_char_name (w : World) (k : Char) (v : GString) :
    execEnvBranch w [("env").data, k :: '=' :: v] = (some (envUsageMsg 1), []) ∧
    (w.setenvErr [k] v = none →
      execEnvBranch w [("env").data, [k], v] =
        (none, [Event.setEnv [k] v,
          Event.publishStdout (setEnvOkMsg [k] v)])) := by
  constructor
  · have hidx : (k :: '=' :: v).findIdx? (fun c => c == '=') =
        some (if k = '=' then 0 else 1) := by
      by_cases hk : k = '='
      · subst hk
        simp [List.findIdx?_cons]
      · simp [List.findIdx?_cons, hk]
    have hle : ¬ 1 < (if k = '=' then 0 else 1) := by split <;> omega
    simp [execEnvBranch, hidx, hle]
  · intro hset
    simp [execEnvBranch, hset]

theorem claim10_env_single_char_name_witness :
    execEnvBranch w0 [("env").data, ("K=V").data] = (some (envUsageMsg 1), []) ∧
    execEnvBranch w0 [("env").data, ("K").data, ("V").data] =
      (none, [Event.setEnv (("K").data) (("V").data),
        Event.publishStdout (setEnvOkMsg (("K").data) (("V").data))]) :=
  ⟨(claim10_env_single_char_name w0 'K' (("V").data)).1,
    (claim10_env_single_char_name w0 'K' (("V").data)).2 rfl⟩

/-- C5: the file-writing directive's body is exactly the submission lines
following the directive line up to, but not including, the first subsequent
line beginning with `%` or `!` (or the end of the submission), each body
line suffixed with a newline, and those body lines -- plus the directive
line itself -- are inserted into the used-line set; `execWriteFile` then
writes the body to the destination file, truncating it by default and
appending instead when the append flag is given.  (`common.FlagsParse` is
not under `src/`; it is modelled from the spec, see `FlagsParse`.) -/
theorem claim5_writefile_body_and_mode (lines : List GString) (i : ℕ)
    (used : Finset ℕ) (w : World) (gx : GoExecState) (fn body : GString)
    (hopen : w.openFileErr = none) (hwrite : w.writeFileErr = none)
    (hfn : fn.head? ≠ some '-') :
    parseCmdBody lines i used =
      ((((lines.drop (i + 1)).takeWhile (fun l => !decide (hasSigilPrefix l))).map
          (fun l => l ++ ['\n'])).flatten,
        insert i used ∪ Finset.Ico (i + 1)
          (i + 1 + ((lines.drop (i + 1)).takeWhile
            (fun l => !decide (hasSigilPrefix l))).length)) ∧
    execWriteFile w gx [fn] body =
      ⟨w.publishStreamErr,
        [Event.openWrite fn false, Event.fileWrite fn body,
          Event.publishStdout (("write to ").data ++ fn ++ (" success\n").data)]⟩ ∧
    execWriteFile w gx [("-a").data, fn] body =
      ⟨w.publishStreamErr,
        [Event.openWrite fn true, Event.fileWrite fn body,
          Event.publishStdout (("write to ").data ++ fn ++ (" success\n").data)]⟩ := by
  refine ⟨?_, ?_, ?_⟩
  · unfold parseCmdBody
    rw [parseCmdBodyAux_spec]
    simp
  · simp +decide [execWriteFile, FlagsParse, FlagsParseAux, hfn, hopen, hwrite,
      List.lookup, show ((toString 1).data) = ['1'] from rfl]
  · simp +decide [execWriteFile, FlagsParse, FlagsParseAux, hfn, hopen, hwrite,
      List.lookup, show ((toString 1).data) = ['1'] from rfl]

theorem claim5_writefile_body_and_mode_witness :
    (w0.openFileErr = none ∧ w0.writeFileErr = none ∧
      ((("f.txt").data : GString).head? ≠ some '-')) ∧
    (parseCmdBody [("%writefile f.txt").data, ("hello").data] 0 ∅ =
      (((([("%writefile f.txt").data, ("hello").data].drop (0 + 1)).takeWhile
          (fun l => !decide (hasSigilPrefix l))).map (fun l => l ++ ['\n'])).flatten,
        insert 0 ∅ ∪ Finset.Ico (0 + 1)
          (0 + 1 + (([("%writefile f.txt").data, ("hello").data].drop (0 + 1)).takeWhile
            (fun l => !decide (hasSigilPrefix l))).length)) ∧
      execWriteFile w0 gx0 [("f.txt").data] (("hello\n").data) =
        ⟨w0.publishStreamErr,
          [Event.openWrite (("f.txt").data) false,
            Event.fileWrite (("f.txt").data) (("hello\n").data),
            Event.publishStdout
              (("write to ").data ++ ("f.txt").data ++ (" success\n").data)]⟩ ∧
      execWriteFile w0 gx0 [("-a").data, ("f.txt").data] (("hello\n").data) =
        ⟨w0.publishStreamErr,
          [Event.openWrite (("f.txt").data) true,
            Event.fileWrite (("f.txt").data) (("hello\n").data),
            Event.publishStdout
              (("write to ").data ++ ("f.txt").data ++ (" success\n").data)]⟩) :=
  ⟨⟨rfl, rfl, by decide⟩,
    claim5_writefile_body_and_mode [("%writefile f.txt").data, ("hello").data] 0 ∅
      w0 gx0 (("f.txt").data) (("hello\n").data) rfl rfl (by decide)⟩
